import Mathlib

/-!
Verification of the reconciliation and batch-sync engine of the
`freedom` repository (backend/task): error classification and retry
policy (`common/base_processor.py`), the funds cross-source merge and
diff analysis (`fundsync/data_processor.py`), the funds database batch
operations (`fundsync/db_operations.py`), the stocks batch engine and
market loop (`stocksync/data_processor.py`, `stocksync/db_operations.py`),
and both sync entry points (`fundsync/index.py`, `stocksync/index.py`).

External effects are embedded explicitly: upstream fetches become an
oracle returning the cleaned records (or `none` for a failed/empty
fetch after retry exhaustion), wall-clock durations become parameters,
database work becomes a trace of `DbCall` values, and a raised Python
exception becomes `Except.error`.
-/

namespace FreedomSync

/-! ## Error classification (`BaseDataProcessor._classify_error`) -/

/-- The error kinds produced by `_classify_error`, named after the
strings the source returns. -/
inductive ErrorKind where
  | CHUNKED_ENCODING
  | TIMEOUT
  | NETWORK
  | RATE_LIMIT
  | SERVER_ERROR
  | AUTH_ERROR
  | NOT_FOUND
  | NO_DATA
  | PANDAS_MISMATCH
  | DATA_FORMAT_ERROR
  | DATABASE_ERROR
  | UNKNOWN
deriving DecidableEq, Repr

/-- Lower-case a string character by character, as Python `str.lower`
does for the ASCII identifiers and keywords the classifier matches. -/
def lowerStr (s : String) : String := ⟨s.data.map Char.toLower⟩

/-- Python's substring test `sub in s` on the underlying characters. -/
def infixOf (sub : List Char) : List Char → Bool
  | [] => sub.isEmpty
  | c :: rest => sub.isPrefixOf (c :: rest) || infixOf sub rest

/-- `strContains s sub` is Python's `sub in s`. -/
def strContains (s sub : String) : Bool := infixOf sub.data s.data

/-- `BaseDataProcessor._classify_error`: the error's type name and its
message text are matched case-insensitively against keyword lists, in
the source's order. -/
def classify_error (error_type error_msg : String) : ErrorKind :=
  let error_str := lowerStr error_msg
  if strContains (lowerStr error_type) "chunkedencodingerror" ||
      strContains error_str "chunked encoding" then .CHUNKED_ENCODING
  else if strContains error_str "timeout" || strContains error_str "timed out" then .TIMEOUT
  else if strContains error_str "connection" || strContains error_str "network" ||
      strContains error_str "unreachable" then .NETWORK
  else if strContains error_str "rate limit" || strContains error_str "too many requests" ||
      strContains error_str "429" then .RATE_LIMIT
  else if strContains error_str "500" || strContains error_str "502" ||
      strContains error_str "503" || strContains error_str "504" ||
      strContains error_str "server error" then .SERVER_ERROR
  else if strContains error_str "unauthorized" || strContains error_str "forbidden" ||
      strContains error_str "401" || strContains error_str "403" then .AUTH_ERROR
  else if strContains error_str "not found" || strContains error_str "404" then .NOT_FOUND
  else if strContains error_str "empty" || strContains error_str "no data" then .NO_DATA
  else if strContains error_str "length mismatch" &&
      strContains error_str "expected axis has 0 elements" then .PANDAS_MISMATCH
  else if strContains error_str "json" || strContains error_str "parse" ||
      strContains error_str "decode" || strContains error_str "format" then .DATA_FORMAT_ERROR
  else if strContains error_str "database" || error_type == "DatabaseError" ||
      error_type == "OperationalError" then .DATABASE_ERROR
  else .UNKNOWN

/-- `BaseDataProcessor._should_retry`. -/
def should_retry (error_type : ErrorKind) (attempt max_retry : Nat) : Bool :=
  if attempt ≥ max_retry then false
  else if error_type = .AUTH_ERROR || error_type = .NOT_FOUND ||
      error_type = .DATA_FORMAT_ERROR then false
  else if error_type = .RATE_LIMIT && attempt ≥ 2 then false
  else true

/-- `BaseDataProcessor._get_retry_delay`; `base_delay` and the returned
delay are Python ints, the attempt index is the loop counter. -/
def get_retry_delay (error_type : ErrorKind) (base_delay : Int) (attempt : Nat) : Int :=
  match error_type with
  | .RATE_LIMIT => base_delay * 2 ^ attempt + 5
  | .CHUNKED_ENCODING => base_delay + 2
  | .TIMEOUT => base_delay + attempt
  | .NETWORK => base_delay * attempt
  | .SERVER_ERROR => base_delay * 2
  | .PANDAS_MISMATCH => base_delay * (attempt + 1)
  | _ => base_delay

/-! ## Fund records and the diff analysis (`fundsync/data_processor.py`) -/

/-- One extracted fund tuple `(code, name, fund_type, price)` as built by
`extract_fund_values`; `price` is `safe_float`'s result, so it can be
`none` even for rows whose raw cell was present. Prices are embedded as
rationals (no arithmetic is ever performed on them). -/
structure FundRecord where
  code : String
  name : String
  ftype : String
  price : Option Rat
deriving DecidableEq, Repr

/-- `FundDataProcessor.analyze_data_differences`: the final record list's
code set is compared with the existing code set; returns
`(new_codes, removed_codes, update_codes)`. -/
def analyze_data_differences (final_funds : List FundRecord) (existing_codes : Finset String) :
    Finset String × Finset String × Finset String :=
  ((final_funds.map FundRecord.code).toFinset \ existing_codes,
   existing_codes \ (final_funds.map FundRecord.code).toFinset,
   (final_funds.map FundRecord.code).toFinset ∩ existing_codes)

/-! ## The funds cross-source merge (`FundDataProcessor.integrate_fund_data`) -/

/-- The first, higher-priority group of fund types iterated by
`integrate_fund_data`. -/
def domestic_types : List String := ["场内基金", "开放基金", "货币基金"]

/-- The supplemental QDII fund types iterated second. -/
def qdii_types : List String := ["欧美QDII", "亚洲QDII"]

/-- Inner loop of `integrate_fund_data`'s first step over one domestic
type's records: a record with a non-null price is appended (stamped with
the loop's `fund_type`) and its code inserted into `domestic_codes`;
a null-price record's code goes to `empty_price_codes` instead. -/
def domesticLoop (fund_type : String) (recs : List FundRecord)
    (funds : List FundRecord) (codes empties : Finset String) :
    List FundRecord × Finset String × Finset String :=
  match recs with
  | [] => (funds, codes, empties)
  | r :: rest =>
    match r.price with
    | some p =>
      domesticLoop fund_type rest (funds ++ [⟨r.code, r.name, fund_type, some p⟩])
        (insert r.code codes) empties
    | none => domesticLoop fund_type rest funds codes (insert r.code empties)

/-- First step of `integrate_fund_data`: fold over the three domestic
types in source order; a type absent from `fund_data` is skipped.
(`fund_data` is a dict in the source; it is embedded as an association
list. The source's `del fund_data[fund_type]` is unobservable here since
each key is looked up exactly once.) -/
def domesticPhase (fund_data : List (String × List FundRecord)) :
    List FundRecord × Finset String × Finset String :=
  domestic_types.foldl
    (fun st t =>
      match fund_data.lookup t with
      | some recs => domesticLoop t recs st.1 st.2.1 st.2.2
      | none => st)
    ([], ∅, ∅)

/-- Inner loop of `integrate_fund_data`'s second step over one QDII
type's records: a record whose code is already in `codes` is skipped;
otherwise it is appended (stamped with the loop's `fund_type`, price
unchecked) and its code inserted. -/
def qdiiLoop (fund_type : String) (recs : List FundRecord)
    (qfunds : List FundRecord) (codes : Finset String) :
    List FundRecord × Finset String :=
  match recs with
  | [] => (qfunds, codes)
  | r :: rest =>
    if r.code ∈ codes then qdiiLoop fund_type rest qfunds codes
    else qdiiLoop fund_type rest (qfunds ++ [⟨r.code, r.name, fund_type, r.price⟩])
      (insert r.code codes)

/-- Second step of `integrate_fund_data`: fold the two QDII types over
the code set produced by the domestic step. -/
def qdiiPhase (fund_data : List (String × List FundRecord)) (codes0 : Finset String) :
    List FundRecord × Finset String :=
  qdii_types.foldl
    (fun st t =>
      match fund_data.lookup t with
      | some recs => qdiiLoop t recs st.1 st.2
      | none => st)
    ([], codes0)

/-- `FundDataProcessor.integrate_fund_data`: returns
`(final_funds, domestic_codes)` where `final_funds` is the domestic
records (non-null price) followed by the supplemental QDII records. -/
def integrate_fund_data (fund_data : List (String × List FundRecord)) :
    List FundRecord × Finset String :=
  let dst := domesticPhase fund_data
  let qst := qdiiPhase fund_data dst.2.1
  (dst.1 ++ qst.1, qst.2)

/-- The records the domestic step keeps for the types in `ts`, written
directly: for each type in order, the records with a non-null price,
stamped with that type. Used to state what the fold computes. -/
def domesticSpecOn (ts : List String) (fund_data : List (String × List FundRecord)) :
    List FundRecord :=
  ts.flatMap fun t =>
    (((fund_data.lookup t).getD []).filter fun r => r.price.isSome).map
      fun r => ⟨r.code, r.name, t, r.price⟩

/-- The codes the domestic step drops as null-priced for the types in
`ts`. -/
def emptiesSpecOn (ts : List String) (fund_data : List (String × List FundRecord)) :
    Finset String :=
  (ts.flatMap fun t =>
    (((fund_data.lookup t).getD []).filter fun r => !r.price.isSome).map
      FundRecord.code).toFinset

/-- The merged records `integrate_fund_data` produces from the domestic
sources. -/
def domesticSpec (fund_data : List (String × List FundRecord)) : List FundRecord :=
  domesticSpecOn domestic_types fund_data

/-! ## Storage calls and batching -/

instance instDecidableEqExcept {ε α : Type} [DecidableEq ε] [DecidableEq α] :
    DecidableEq (Except ε α)
  | .ok a, .ok b =>
    if h : a = b then .isTrue (congrArg Except.ok h)
    else .isFalse fun he => h (Except.ok.inj he)
  | .ok _, .error _ => .isFalse fun he => Except.noConfusion he
  | .error _, .ok _ => .isFalse fun he => Except.noConfusion he
  | .error a, .error b =>
    if h : a = b then .isTrue (congrArg Except.error h)
    else .isFalse fun he => h (Except.error.inj he)

/-- One database interaction issued by the sync engines; batch calls
record the batch's record count, the delete calls record how many keys
the single set-based statement targets. -/
inductive DbCall where
  | getExistingFundCodes
  | markFundsDeleted (codeCount : Nat)
  | insertFundBatch (n : Nat)
  | updateFundBatch (n : Nat)
  | updateStockBatch (market : String) (n : Nat)
  | insertStockBatch (market : String) (n : Nat)
  | markStocksDeleted (market : String) (n : Nat)
deriving DecidableEq, Repr

/-- Worker for `chunks`, structurally recursive on the fuel (each
round with a positive `size` consumes at least one element, so fuel
equal to the list's length suffices). -/
def chunksGo (size : Nat) : Nat → List α → List (List α)
  | _, [] => []
  | 0, _ :: _ => []
  | fuel + 1, a :: l => (a :: l).take size :: chunksGo size fuel ((a :: l).drop size)

/-- Python's `[l[i:i+size] for i in range(0, len(l), size)]`. A step of
`0` raises in Python and never occurs (configured batch sizes are
positive); it is mapped to `[]`. -/
def chunks (size : Nat) (l : List α) : List (List α) :=
  if size = 0 then [] else chunksGo size l.length l

/-! ## Funds database operations (`fundsync/db_operations.py`)

Wall-clock durations are inputs (`elapsed`), except on the empty-input
early returns, which yield the literal `0.0` before any timing starts.
Whether a batch's transaction fails is an oracle on the batch index; a
failed insert or update batch is re-raised by `insert_new_funds` /
`update_existing_funds` (the source's `raise` in the `as_completed`
loop), which the embedding renders as `Except.error`. Thread scheduling
only permutes batch completion order; the calls issued and the raised
outcome are order-independent, so the batch list is kept in order. -/

/-- `FundDatabase.mark_funds_deleted`: empty input returns `0.0` with no
connection use; otherwise one set-based statement runs and the measured
duration is returned. -/
def mark_funds_deleted (elapsed : Rat) (fund_codes : Finset String) : Rat × List DbCall :=
  if fund_codes = ∅ then (0, [])
  else (elapsed, [DbCall.markFundsDeleted fund_codes.card])

/-- `FundDatabase.insert_new_funds`: empty input returns `0.0`;
otherwise the funds are split into batches and inserted concurrently;
the first failed batch's exception is re-raised. -/
def insert_new_funds (batchFails : Nat → Bool) (batch_size : Nat) (elapsed : Rat)
    (funds : List FundRecord) : Except String (Rat × List DbCall) :=
  if funds = [] then .ok (0, [])
  else
    let batches := chunks batch_size funds
    if (List.range batches.length).any batchFails then .error "批量插入失败"
    else .ok (elapsed, batches.map (fun b => DbCall.insertFundBatch b.length))

/-- `FundDatabase.update_existing_funds`: same shape as
`insert_new_funds` with the update statement. -/
def update_existing_funds (batchFails : Nat → Bool) (batch_size : Nat) (elapsed : Rat)
    (funds : List FundRecord) : Except String (Rat × List DbCall) :=
  if funds = [] then .ok (0, [])
  else
    let batches := chunks batch_size funds
    if (List.range batches.length).any batchFails then .error "批量更新失败"
    else .ok (elapsed, batches.map (fun b => DbCall.updateFundBatch b.length))

/-! ## Stocks database operations (`stocksync/db_operations.py`) -/

/-- One cleaned stock row. Only the business key steers the engine's
control flow (partitioning into update/insert and the removed-symbol
set); the remaining cleaned columns travel with the record unmodified
and are embedded as an opaque payload. -/
structure StockRecord where
  symbol : String
  payload : String
deriving DecidableEq, Repr

/-- A Python value as returned by `mark_stocks_as_deleted` or expected
by its caller: either a bare int or a `(count, duration)` pair. The
source function returns a bare int on every path. -/
inductive PyVal where
  | int (n : Nat)
  | pair (n : Nat) (d : Rat)
deriving DecidableEq, Repr

/-- `update_stock_records_batch`: the worker catches every exception
inside itself; a transaction failure yields `(0, duration, error)`,
success yields `(len(batch_records), duration, None)` (row-level
zero-rowcount keys go to the shared failed list, not embedded here —
they do not change the returned count). -/
def update_stock_records_batch (txFail : Bool) (elapsed : Rat)
    (batch_records : List StockRecord) : Nat × Rat × Option String :=
  if txFail then (0, elapsed, some "事务失败")
  else (batch_records.length, elapsed, none)

/-- `insert_stock_records_batch`, same contract as the update worker. -/
def insert_stock_records_batch (txFail : Bool) (elapsed : Rat)
    (batch_records : List StockRecord) : Nat × Rat × Option String :=
  if txFail then (0, elapsed, some "事务失败")
  else (batch_records.length, elapsed, none)

/-- `mark_stocks_as_deleted`: empty input returns `0` with no statement;
otherwise the set-based statement runs inside a transaction and the
function returns the affected row count, or `0` if the transaction
raised (the exception is caught). Every path returns a bare int
(`PyVal.int`), never a `(count, duration)` pair. -/
def mark_stocks_as_deleted (txOk : Bool) (rowcount : Nat) (market : String)
    (symbols_to_delete : Finset String) : PyVal × List DbCall :=
  if symbols_to_delete = ∅ then (.int 0, [])
  else if txOk then (.int rowcount, [DbCall.markStocksDeleted market symbols_to_delete.card])
  else (.int 0, [DbCall.markStocksDeleted market symbols_to_delete.card])

/-! ## Stocks batch engine (`StockDataProcessor.process_market_records`) -/

/-- The aggregate a market sync returns: counts and duration sums per
operation kind. The source also carries the shared `failed_updates`
row-failure list, which no claim here depends on and which is omitted. -/
structure MarketSyncResult where
  updated : Nat
  update_time : Rat
  inserted : Nat
  insert_time : Rat
  deleted : Nat
  delete_time : Rat
deriving DecidableEq, Repr

/-- One step of the `as_completed` aggregation loop: a result whose
error slot is `None` contributes its count and duration; a failed
batch's result contributes nothing. -/
def foldBatchStep (acc : Nat × Rat) (r : Nat × Rat × Option String) : Nat × Rat :=
  match r.2.2 with
  | none => (acc.1 + r.1, acc.2 + r.2.1)
  | some _ => acc

/-- The `as_completed` aggregation loop shared by the update and insert
pools. Batch completion order is scheduler-dependent in the source, but
the fold is a commutative sum, so list order is used. -/
def foldBatchResults (results : List (Nat × Rat × Option String)) : Nat × Rat :=
  results.foldl foldBatchStep (0, 0)

/-- The summed record count of the batches whose transaction succeeds,
written directly: used to state what the aggregation loop computes. -/
def successSizes (fail : Nat → Bool) (batches : List (List StockRecord)) : Nat :=
  ((batches.enum.filter fun p => !(fail p.1)).map fun p => p.2.length).sum

/-- `STOCK_CONFIG["batch_size"]` from `common/config.py`. -/
def STOCK_CONFIG_batch_size : Nat := 2000

/-- `StockDataProcessor.process_market_records`: updates then inserts
run in worker pools over size-bounded batches (every batch's
transaction is attempted; per-batch failures are oracles on the batch
index), then the removed symbols are marked deleted. The source unpacks
`deleted_count, del_duration = mark_stocks_as_deleted(...)`, but that
function returns a bare int on every path, so a non-empty removed set
raises `TypeError`, embedded as `Except.error`. -/
def process_market_records (updFail insFail : Nat → Bool) (updElapsed insElapsed : Rat)
    (delOk : Bool) (delRowcount : Nat) (market : String)
    (exist_records new_records : List StockRecord) (removed_symbols : Finset String)
    (batch_size : Nat) : Except String MarketSyncResult × List DbCall :=
  let ubatches := chunks batch_size exist_records
  let utotal := foldBatchResults
    (ubatches.enum.map fun p => update_stock_records_batch (updFail p.1) updElapsed p.2)
  let ucalls := ubatches.map fun b => DbCall.updateStockBatch market b.length
  let ibatches := chunks batch_size new_records
  let itotal := foldBatchResults
    (ibatches.enum.map fun p => insert_stock_records_batch (insFail p.1) insElapsed p.2)
  let icalls := ibatches.map fun b => DbCall.insertStockBatch market b.length
  if removed_symbols = ∅ then
    (.ok ⟨utotal.1, utotal.2, itotal.1, itotal.2, 0, 0⟩, ucalls ++ icalls)
  else
    match mark_stocks_as_deleted delOk delRowcount market removed_symbols with
    | (.pair c d, dcalls) =>
      (.ok ⟨utotal.1, utotal.2, itotal.1, itotal.2, c, d⟩, ucalls ++ icalls ++ dcalls)
    | (.int _, dcalls) =>
      (.error "TypeError: cannot unpack non-iterable int object", ucalls ++ icalls ++ dcalls)

/-! ## Stocks orchestration (`stocksync/data_processor.py`, `stocksync/index.py`) -/

/-- The per-run environment of a stocks sync: fetch-and-clean outcomes
per market (`none` once `safely_get_market_data` has exhausted retries
or the frame is empty; otherwise the cleaned, `dropna`-filtered rows),
the snapshot of existing symbols per market, per-batch transaction
outcomes, the trading-hours check, and whether `create_data_factory`
succeeds when a `StockDataProcessor` is constructed. -/
structure StockWorld where
  factoryOk : Bool
  fetched : String → Option (List StockRecord)
  existingMap : String → Finset String
  updFail : String → Nat → Bool
  insFail : String → Nat → Bool
  delOk : String → Bool
  delRowcount : String → Nat
  updElapsed : Rat
  insElapsed : Rat
  marketOpen : String → Bool

/-- The market names registered by `StockDataFactory`, in registration
order. -/
def STOCK_MARKETS : List String := ["A股", "港股", "美股"]

/-- `StockDataProcessor.process_and_sync_stock_data` for one market:
a failed or empty fetch logs and returns early (the market is skipped);
otherwise the cleaned rows are partitioned against the existing-symbol
snapshot and handed to `process_market_records`. The source's
chunked-processing branch produces the same partition as the direct
branch and is embedded as the direct filter. -/
def process_and_sync_stock_data (w : StockWorld) (market : String) :
    Except String Unit × List DbCall :=
  match w.fetched market with
  | none => (.ok (), [])
  | some cleaned =>
    let existing := w.existingMap market
    let new_symbols := (cleaned.map StockRecord.symbol).toFinset
    let exist_records := cleaned.filter fun r => r.symbol ∈ existing
    let new_records := cleaned.filter fun r => r.symbol ∉ existing
    let removed_symbols := existing \ new_symbols
    match process_market_records (w.updFail market) (w.insFail market)
        w.updElapsed w.insElapsed (w.delOk market) (w.delRowcount market) market
        exist_records new_records removed_symbols STOCK_CONFIG_batch_size with
    | (.ok _, calls) => (.ok (), calls)
    | (.error e, calls) => (.error e, calls)

/-- The market loop of `StockDataProcessor.collect_all_stock_data`,
threading the processed/skipped counters and the issued calls; an
exception from one market's processing propagates out of the loop and
the remaining markets are not visited. -/
def collect_all_stock_data_aux (w : StockWorld) :
    List String → Nat → Nat → List DbCall → Except String (Nat × Nat) × List DbCall
  | [], processed, skipped, calls => (.ok (processed, skipped), calls)
  | m :: rest, processed, skipped, calls =>
    if w.marketOpen m then
      match process_and_sync_stock_data w m with
      | (.ok _, c) => collect_all_stock_data_aux w rest (processed + 1) skipped (calls ++ c)
      | (.error e, c) => (.error e, calls ++ c)
    else collect_all_stock_data_aux w rest processed (skipped + 1) calls

/-- `StockDataProcessor.collect_all_stock_data`: iterate the configured
markets; an open market is processed, a closed one is skipped. -/
def collect_all_stock_data (w : StockWorld) : Except String (Nat × Nat) × List DbCall :=
  collect_all_stock_data_aux w STOCK_MARKETS 0 0 []

/-- The dict returned by the stocks `sync_task_runner`: a success flag
with either the processed/skipped counts or the error text. -/
structure StockRunResult where
  success : Bool
  counts : Option (Nat × Nat)
  errMsg : Option String
deriving DecidableEq, Repr

/-- `stocksync/index.py · sync_task_runner`: the body — processor
construction, existing-symbol query (which catches its own exceptions),
and the market loop — is wrapped in `try/except`, so its exceptions
become a `success=False` dict. The `finally` block constructs another
`StockDataProcessor`, which raises when the data factory cannot be
initialized; an exception raised in `finally` replaces the return
value and escapes. -/
def stock_sync_task_runner (w : StockWorld) : Except String StockRunResult × List DbCall :=
  let body : Except String (Nat × Nat) × List DbCall :=
    if w.factoryOk then collect_all_stock_data w
    else (.error "数据工厂初始化失败", [])
  let caught : StockRunResult :=
    match body.1 with
    | .ok r => ⟨true, some r, none⟩
    | .error e => ⟨false, none, some e⟩
  if w.factoryOk then (.ok caught, body.2) else (.error "数据工厂初始化失败", body.2)

/-! ## Funds orchestration (`fundsync/data_processor.py`, `fundsync/index.py`) -/

/-- `FUND_TYPES.keys()` from `common/config.py`, in declaration order —
both the iteration order of `fund_tasks` and the required coverage set. -/
def FUND_TYPES_keys : List String := ["开放基金", "货币基金", "场内基金", "欧美QDII", "亚洲QDII"]

/-- `FUND_CONFIG["batch_size"]` from `common/config.py`. -/
def FUND_CONFIG_batch_size : Nat := 2000

/-- The per-run environment of a funds sync: per-type fetch outcomes
(`none` when `safe_get_data` exhausts retries or the frame is empty or
`None`; otherwise the records `extract_fund_values` produced — the
source's chunked extraction concatenates to the same list), the
existing-code snapshot, per-batch transaction outcomes and measured
durations. -/
structure FundsWorld where
  fetched : String → Option (List FundRecord)
  existing_codes : Finset String
  insFail : Nat → Bool
  updFail : Nat → Bool
  delElapsed : Rat
  insElapsed : Rat
  updElapsed : Rat

/-- The body of `collect_all_fund_data`'s loop for one fund type: a
failed fetch (or an empty frame, or an extraction yielding no records)
leaves the state unchanged (the source also logs it into
`failed_types`); a successful one appends its records and marks the
type successful. -/
def collectFundStep (fetched : String → Option (List FundRecord))
    (st : List (String × List FundRecord) × Finset String) (fund_name : String) :
    List (String × List FundRecord) × Finset String :=
  match fetched fund_name with
  | none => st
  | some [] => st
  | some recs => (st.1 ++ [(fund_name, recs)], insert fund_name st.2)

/-- `FundDataProcessor.collect_all_fund_data`: every configured type is
attempted; a type whose fetch failed or produced no records joins the
failed set; the collected data is returned only when the success set
equals the required set, otherwise `None`. -/
def collect_all_fund_data (fetched : String → Option (List FundRecord)) :
    Option (List (String × List FundRecord)) :=
  let st := FUND_TYPES_keys.foldl (collectFundStep fetched) ([], ∅)
  if st.2 = FUND_TYPES_keys.toFinset then some st.1 else none

/-- `FundDatabase.execute_batch_updates`: mark-deleted, then insert the
new funds, then update the existing ones; an exception re-raised by a
batch operation propagates (the embedding keeps the calls of the
operations completed before the raise; the raising operation's own
rolled-back and concurrently scheduled batch calls are not recorded). -/
def execute_batch_updates (w : FundsWorld) (final_funds : List FundRecord)
    (new_codes removed_codes update_codes : Finset String) :
    Except String Unit × List DbCall :=
  let del := mark_funds_deleted w.delElapsed removed_codes
  let new_funds := final_funds.filter fun f => f.code ∈ new_codes
  match insert_new_funds w.insFail FUND_CONFIG_batch_size w.insElapsed new_funds with
  | .error e => (.error e, del.2)
  | .ok ins =>
    let update_funds := final_funds.filter fun f => f.code ∈ update_codes
    match update_existing_funds w.updFail FUND_CONFIG_batch_size w.updElapsed update_funds with
    | .error e => (.error e, del.2 ++ ins.2)
    | .ok upd => (.ok (), del.2 ++ ins.2 ++ upd.2)

/-- `fundsync/index.py · sync_task_runner` (engine construction assumed
to succeed): collect, and on incomplete coverage return immediately —
before any database interaction; otherwise integrate, read the existing
codes, analyze the differences, and execute the batch updates. The
function body has no `try/except`: an exception from the database
operations escapes, and on every normal path the function returns
Python `None` (embedded as the constant `none`). -/
def funds_sync_task_runner (w : FundsWorld) :
    Except String (Option Unit) × List DbCall :=
  match collect_all_fund_data w.fetched with
  | none => (.ok none, [])
  | some fund_data =>
    let ifd := integrate_fund_data fund_data
    let d := analyze_data_differences ifd.1 w.existing_codes
    match execute_batch_updates w ifd.1 d.1 d.2.1 d.2.2 with
    | (.error e, calls) => (.error e, DbCall.getExistingFundCodes :: calls)
    | (.ok _, calls) => (.ok none, DbCall.getExistingFundCodes :: calls)

/-! ## Concrete runs used by the counterexamples and witnesses -/

/-- A funds run in which every source fetch fails. -/
def wAbortFunds : FundsWorld :=
  ⟨fun _ => none, ∅, fun _ => false, fun _ => false, 0, 0, 0⟩

/-- A funds run in which every source yields one record (code and name
equal to the type name, price 1) and every database batch succeeds. -/
def wGoodFunds : FundsWorld :=
  ⟨fun n => some [⟨n, n, n, some 1⟩], ∅, fun _ => false, fun _ => false, 0, 0, 0⟩

/-- The same fetch outcomes as `wGoodFunds`, but every insert batch's
transaction fails. -/
def wInsFailFunds : FundsWorld :=
  ⟨fun n => some [⟨n, n, n, some 1⟩], ∅, fun _ => true, fun _ => false, 0, 0, 0⟩

/-- A stocks run exhibiting the delete-path fault: market `A股` has an
existing symbol `SA` absent from the fetched data (so its removed set
is non-empty) and its delete transaction fails; market `港股` fetches
one fresh symbol and all its batches would succeed. -/
def wBugStocks : StockWorld where
  factoryOk := true
  fetched := fun m =>
    if m = "A股" then some [⟨"SB", "p"⟩]
    else if m = "港股" then some [⟨"SH", "p"⟩]
    else none
  existingMap := fun m => if m = "A股" then {"SA"} else ∅
  updFail := fun _ _ => false
  insFail := fun _ _ => false
  delOk := fun _ => false
  delRowcount := fun _ => 0
  updElapsed := 0
  insElapsed := 0
  marketOpen := fun _ => true

/-- The merge input of C3's counterexample: the same business key `X`
appears in two domestic sources with different prices. -/
def dupDomesticData : List (String × List FundRecord) :=
  [("场内基金", [⟨"X", "a", "场内基金", some 10⟩]),
   ("开放基金", [⟨"X", "b", "开放基金", some 20⟩])]

/-- The merge input of C4's counterexample: one supplemental QDII record
whose price is null and whose key is fresh. -/
def nullQdiiData : List (String × List FundRecord) :=
  [("欧美QDII", [⟨"Y", "y", "欧美QDII", none⟩])]

/-- The spec's merge example: domestic `X` at price 10, supplemental
`X` at price 20 and `Y` at price 5. -/
def mixedMergeData : List (String × List FundRecord) :=
  [("场内基金", [⟨"X", "x", "场内基金", some 10⟩]),
   ("欧美QDII", [⟨"X", "x2", "欧美QDII", some 20⟩, ⟨"Y", "y", "欧美QDII", some 5⟩])]

/-- The record list of the spec's diff example `diff(a b c, b c d)`. -/
def demoFunds : List FundRecord :=
  [⟨"a", "a", "t", none⟩, ⟨"b", "b", "t", none⟩, ⟨"c", "c", "t", none⟩]

/-- The existing-code snapshot of the spec's diff example. -/
def demoExisting : Finset String := {"b", "c", "d"}

/-! ## The shape of the cross-source merge -/

/-- Stamping records with a fund type leaves their codes unchanged. -/
theorem codes_map_stamp (t : String) (l : List FundRecord) :
    (l.map fun r => (⟨r.code, r.name, t, r.price⟩ : FundRecord)).map FundRecord.code
      = l.map FundRecord.code := by
  simp [List.map_map, Function.comp]

/-- Composition form of `codes_map_stamp`, as `simp` produces it. -/
theorem codes_comp_stamp (t : String) (l : List FundRecord) :
    l.map (FundRecord.code ∘ fun r => (⟨r.code, r.name, t, r.price⟩ : FundRecord))
      = l.map FundRecord.code := by
  simp [Function.comp]

/-- The domestic inner loop appends exactly the non-null-price records
(stamped with the loop's type), collects their codes, and collects the
null-price codes separately. -/
theorem domesticLoop_eq (t : String) (recs : List FundRecord) :
    ∀ (funds : List FundRecord) (codes empties : Finset String),
    domesticLoop t recs funds codes empties =
      (funds ++ (recs.filter fun r => r.price.isSome).map fun r => ⟨r.code, r.name, t, r.price⟩,
       codes ∪ ((recs.filter fun r => r.price.isSome).map FundRecord.code).toFinset,
       empties ∪ ((recs.filter fun r => !r.price.isSome).map FundRecord.code).toFinset) := by
  induction recs with
  | nil =>
    intro funds codes empties
    simp [domesticLoop]
  | cons r rest ih =>
    intro funds codes empties
    cases hp : r.price with
    | some p =>
      simp [domesticLoop, hp, ih, List.filter_cons, List.toFinset_cons,
        Finset.insert_union, Finset.union_insert, List.append_assoc]
    | none =>
      simp [domesticLoop, hp, ih, List.filter_cons, List.toFinset_cons,
        Finset.insert_union, Finset.union_insert]

/-- The domestic fold over any type list, relative to any starting
state. -/
theorem domesticFold_eq (fd : List (String × List FundRecord)) (ts : List String) :
    ∀ st : List FundRecord × Finset String × Finset String,
    ts.foldl (fun st t =>
      match fd.lookup t with
      | some recs => domesticLoop t recs st.1 st.2.1 st.2.2
      | none => st) st =
      (st.1 ++ domesticSpecOn ts fd,
       st.2.1 ∪ ((domesticSpecOn ts fd).map FundRecord.code).toFinset,
       st.2.2 ∪ emptiesSpecOn ts fd) := by
  induction ts with
  | nil =>
    intro st
    simp [domesticSpecOn, emptiesSpecOn]
  | cons t ts ih =>
    intro st
    rw [List.foldl_cons]
    have hstep : (match fd.lookup t with
        | some recs => domesticLoop t recs st.1 st.2.1 st.2.2
        | none => st) = domesticLoop t ((fd.lookup t).getD []) st.1 st.2.1 st.2.2 := by
      cases fd.lookup t <;> rfl
    rw [hstep, domesticLoop_eq, ih]
    simp [domesticSpecOn, emptiesSpecOn, List.toFinset_append, List.append_assoc,
      Finset.union_assoc, codes_map_stamp, codes_comp_stamp]

/-- `domesticPhase` computes the directly-written domestic merge, its
code set, and the excluded null-price code set. -/
theorem domesticPhase_eq (fd : List (String × List FundRecord)) :
    domesticPhase fd =
      (domesticSpec fd, ((domesticSpec fd).map FundRecord.code).toFinset,
       emptiesSpecOn domestic_types fd) := by
  unfold domesticPhase domesticSpec
  rw [domesticFold_eq]
  simp

/-- The QDII inner loop appends some list of records each of whose
codes is fresh relative to the incoming code set, with pairwise
distinct codes, all stamped with the loop's type. -/
theorem qdiiLoop_spec (t : String) (recs : List FundRecord) :
    ∀ (qfunds : List FundRecord) (codes : Finset String),
    ∃ added : List FundRecord,
      qdiiLoop t recs qfunds codes =
        (qfunds ++ added, codes ∪ (added.map FundRecord.code).toFinset) ∧
      (∀ r ∈ added, r.code ∉ codes) ∧
      (added.map FundRecord.code).Nodup ∧
      (∀ r ∈ added, r.ftype = t) := by
  induction recs with
  | nil =>
    intro qfunds codes
    exact ⟨[], by simp [qdiiLoop], by simp, by simp, by simp⟩
  | cons r rest ih =>
    intro qfunds codes
    by_cases hmem : r.code ∈ codes
    · obtain ⟨added, heq, hfresh, hnd, hty⟩ := ih qfunds codes
      refine ⟨added, ?_, hfresh, hnd, hty⟩
      rw [qdiiLoop, if_pos hmem, heq]
    · obtain ⟨added, heq, hfresh, hnd, hty⟩ :=
        ih (qfunds ++ [⟨r.code, r.name, t, r.price⟩]) (insert r.code codes)
      refine ⟨⟨r.code, r.name, t, r.price⟩ :: added, ?_, ?_, ?_, ?_⟩
      · rw [qdiiLoop, if_neg hmem, heq]
        simp [List.append_assoc, List.toFinset_cons, Finset.insert_union,
          Finset.union_insert]
      · intro x hx
        rcases List.mem_cons.mp hx with h | h
        · rw [h]
          exact hmem
        · intro hc
          exact hfresh x h (Finset.mem_insert_of_mem hc)
      · rw [List.map_cons, List.nodup_cons]
        refine ⟨?_, hnd⟩
        intro hc
        obtain ⟨x, hx, hxc⟩ := List.mem_map.mp hc
        exact hfresh x hx (hxc ▸ Finset.mem_insert_self _ _)
      · intro x hx
        rcases List.mem_cons.mp hx with h | h
        · rw [h]
        · exact hty x h

/-- The QDII fold over any type list, relative to any starting state. -/
theorem qdiiFold_spec (fd : List (String × List FundRecord)) (ts : List String) :
    ∀ (qfunds : List FundRecord) (codes : Finset String),
    ∃ added : List FundRecord,
      ts.foldl (fun st t =>
        match fd.lookup t with
        | some recs => qdiiLoop t recs st.1 st.2
        | none => st) (qfunds, codes) =
        (qfunds ++ added, codes ∪ (added.map FundRecord.code).toFinset) ∧
      (∀ r ∈ added, r.code ∉ codes) ∧
      (added.map FundRecord.code).Nodup ∧
      (∀ r ∈ added, r.ftype ∈ ts) := by
  induction ts with
  | nil =>
    intro qfunds codes
    exact ⟨[], by simp, by simp, by simp, by simp⟩
  | cons t ts ih =>
    intro qfunds codes
    rw [List.foldl_cons]
    have hstep : (match fd.lookup t with
        | some recs => qdiiLoop t recs (qfunds, codes).1 (qfunds, codes).2
        | none => (qfunds, codes)) = qdiiLoop t ((fd.lookup t).getD []) qfunds codes := by
      cases fd.lookup t <;> rfl
    rw [hstep]
    obtain ⟨a1, heq1, hfresh1, hnd1, hty1⟩ := qdiiLoop_spec t ((fd.lookup t).getD []) qfunds codes
    rw [heq1]
    obtain ⟨a2, heq2, hfresh2, hnd2, hty2⟩ :=
      ih (qfunds ++ a1) (codes ∪ (a1.map FundRecord.code).toFinset)
    rw [heq2]
    refine ⟨a1 ++ a2, ?_, ?_, ?_, ?_⟩
    · simp [List.append_assoc, List.toFinset_append, Finset.union_assoc]
    · intro x hx
      rcases List.mem_append.mp hx with h | h
      · exact hfresh1 x h
      · intro hc
        exact hfresh2 x h (Finset.mem_union_left _ hc)
    · rw [List.map_append, List.nodup_append]
      refine ⟨hnd1, hnd2, ?_⟩
      intro c hc1 hc2
      obtain ⟨x, hx, hxc⟩ := List.mem_map.mp hc2
      exact hfresh2 x hx
        (hxc ▸ Finset.mem_union_right _ (List.mem_toFinset.mpr hc1))
    · intro x hx
      rcases List.mem_append.mp hx with h | h
      · exact (hty1 x h) ▸ List.mem_cons_self t ts
      · exact List.mem_cons_of_mem t (hty2 x h)

/-- `integrate_fund_data` is the domestic merge followed by a QDII
supplement whose codes are pairwise distinct and absent from the
domestic codes. -/
theorem integrate_fund_data_eq (fd : List (String × List FundRecord)) :
    ∃ added : List FundRecord,
      integrate_fund_data fd =
        (domesticSpec fd ++ added,
         ((domesticSpec fd).map FundRecord.code).toFinset ∪
           (added.map FundRecord.code).toFinset) ∧
      (∀ r ∈ added, r.code ∉ ((domesticSpec fd).map FundRecord.code).toFinset) ∧
      (added.map FundRecord.code).Nodup ∧
      (∀ r ∈ added, r.ftype ∈ qdii_types) := by
  obtain ⟨added, heq, hfresh, hnd, hty⟩ :=
    qdiiFold_spec fd qdii_types [] (((domesticSpec fd).map FundRecord.code).toFinset)
  refine ⟨added, ?_, hfresh, hnd, hty⟩
  unfold integrate_fund_data qdiiPhase
  rw [domesticPhase_eq]
  dsimp only
  rw [heq]
  simp

/-! ## C8 — the retry-delay table -/

/-- C8 (counterexample): the claim's `Network → baseDelay * max(attemptIndex, 1)`
fails at `baseDelay = 3, attemptIndex = 0`: `_get_retry_delay` computes
`base_delay * attempt = 0`, not `3 * max(0,1) = 3`. -/
theorem C8_counterexample :
    get_retry_delay ErrorKind.NETWORK 3 0 = 0 ∧
    get_retry_delay ErrorKind.NETWORK 3 0 ≠ 3 * ((max 0 1 : Nat) : Int) := by
  decide

/-- C8 (amended): for every base delay and attempt index,
`_get_retry_delay` returns `base * 2^attempt + 5` for `RATE_LIMIT`,
`base + 2` for `CHUNKED_ENCODING`, `base + attempt` for `TIMEOUT`,
`base * attempt` (not `base * max(attempt,1)`) for `NETWORK`,
`base * 2` for `SERVER_ERROR`, `base * (attempt + 1)` for
`PANDAS_MISMATCH`, and `base` for every other kind. -/
theorem C8_retry_delay (base : Int) (attempt : Nat) :
    get_retry_delay .RATE_LIMIT base attempt = base * 2 ^ attempt + 5 ∧
    get_retry_delay .CHUNKED_ENCODING base attempt = base + 2 ∧
    get_retry_delay .TIMEOUT base attempt = base + attempt ∧
    get_retry_delay .NETWORK base attempt = base * attempt ∧
    get_retry_delay .SERVER_ERROR base attempt = base * 2 ∧
    get_retry_delay .PANDAS_MISMATCH base attempt = base * (attempt + 1) ∧
    ∀ k : ErrorKind, k ≠ .RATE_LIMIT → k ≠ .CHUNKED_ENCODING → k ≠ .TIMEOUT →
      k ≠ .NETWORK → k ≠ .SERVER_ERROR → k ≠ .PANDAS_MISMATCH →
      get_retry_delay k base attempt = base := by
  refine ⟨rfl, rfl, rfl, rfl, rfl, rfl, ?_⟩
  intro k h1 h2 h3 h4 h5 h6
  cases k <;> simp_all [get_retry_delay]

/-- C8 (witness): the fallback row of the table at a concrete kind. -/
theorem C8_retry_delay_witness : get_retry_delay ErrorKind.UNKNOWN 7 4 = 7 :=
  (C8_retry_delay 7 4).2.2.2.2.2.2 ErrorKind.UNKNOWN (by decide) (by decide)
    (by decide) (by decide) (by decide) (by decide)

/-! ## C9 — timeout classification -/

/-- C9 (counterexample): a message that contains `timeout`
(case-insensitively) but also matches the earlier encoding-transport
check is classified `CHUNKED_ENCODING`, not `TIMEOUT`. -/
theorem C9_counterexample :
    strContains (lowerStr "Chunked Encoding Timeout") "timeout" = true ∧
    classify_error "Exception" "Chunked Encoding Timeout" ≠ ErrorKind.TIMEOUT := by
  decide

/-- C9 (amended): for every error that does not match the preceding
encoding-transport check, a message containing `timeout`
(case-insensitively) classifies as `TIMEOUT`, and
`_should_retry(TIMEOUT, attempt, max)` holds whenever `attempt < max`. -/
theorem C9_classify_timeout (ty msg : String)
    (h1 : strContains (lowerStr ty) "chunkedencodingerror" = false)
    (h2 : strContains (lowerStr msg) "chunked encoding" = false)
    (h3 : strContains (lowerStr msg) "timeout" = true)
    (attempt max_retry : Nat) (h4 : attempt < max_retry) :
    classify_error ty msg = ErrorKind.TIMEOUT ∧
    should_retry ErrorKind.TIMEOUT attempt max_retry = true := by
  constructor
  · unfold classify_error
    simp [h1, h2, h3]
  · unfold should_retry
    rw [if_neg (Nat.not_le.mpr h4)]
    simp

/-- C9 (witness): a concrete timeout error is classified `TIMEOUT` and
retried on the first attempt out of three. -/
theorem C9_classify_timeout_witness :
    classify_error "ValueError" "Read TIMEOUT after 30 seconds" = ErrorKind.TIMEOUT ∧
    should_retry ErrorKind.TIMEOUT 0 3 = true :=
  C9_classify_timeout "ValueError" "Read TIMEOUT after 30 seconds"
    (by decide) (by decide) (by decide) 0 3 (by decide)

/-! ## C2 — the diff law -/

/-- C2: `analyze_data_differences` returns exactly
`(canonical − existing, existing − canonical, canonical ∩ existing)`;
the three sets are pairwise disjoint and every canonical key lands in
exactly one of ToInsert / ToUpdate. -/
theorem C2_diff (final_funds : List FundRecord) (existing : Finset String) :
    (analyze_data_differences final_funds existing).1
        = (final_funds.map FundRecord.code).toFinset \ existing ∧
    (analyze_data_differences final_funds existing).2.1
        = existing \ (final_funds.map FundRecord.code).toFinset ∧
    (analyze_data_differences final_funds existing).2.2
        = (final_funds.map FundRecord.code).toFinset ∩ existing ∧
    Disjoint (analyze_data_differences final_funds existing).1
      (analyze_data_differences final_funds existing).2.2 ∧
    Disjoint (analyze_data_differences final_funds existing).1
      (analyze_data_differences final_funds existing).2.1 ∧
    Disjoint (analyze_data_differences final_funds existing).2.2
      (analyze_data_differences final_funds existing).2.1 ∧
    ∀ c ∈ (final_funds.map FundRecord.code).toFinset,
      (c ∈ (analyze_data_differences final_funds existing).1 ∧
        c ∉ (analyze_data_differences final_funds existing).2.2) ∨
      (c ∉ (analyze_data_differences final_funds existing).1 ∧
        c ∈ (analyze_data_differences final_funds existing).2.2) := by
  refine ⟨rfl, rfl, rfl, ?_, ?_, ?_, ?_⟩
  · simp only [analyze_data_differences, Finset.disjoint_left, Finset.mem_sdiff,
      Finset.mem_inter]
    tauto
  · simp only [analyze_data_differences, Finset.disjoint_left, Finset.mem_sdiff]
    tauto
  · simp only [analyze_data_differences, Finset.disjoint_left, Finset.mem_sdiff,
      Finset.mem_inter]
    tauto
  · intro c hc
    by_cases h : c ∈ existing
    · right
      simp [analyze_data_differences, hc, h]
    · left
      simp [analyze_data_differences, hc, h]

/-- C2 (witness): the spec's worked example `diff(a b c, b c d)` at the
key `a`, which lands in ToInsert and not in ToUpdate. -/
theorem C2_diff_witness :
    ("a" ∈ (analyze_data_differences demoFunds demoExisting).1 ∧
      "a" ∉ (analyze_data_differences demoFunds demoExisting).2.2) ∨
    ("a" ∉ (analyze_data_differences demoFunds demoExisting).1 ∧
      "a" ∈ (analyze_data_differences demoFunds demoExisting).2.2) :=
  (C2_diff demoFunds demoExisting).2.2.2.2.2.2 "a" (by decide)

/-! ## C10 — empty inputs issue no storage call -/

/-- C10: with an empty input collection, `mark_funds_deleted`,
`insert_new_funds`, `update_existing_funds` and `mark_stocks_as_deleted`
each issue no database call and return zero (a `0.0` duration for the
fund operations, an affected count of `0` for the stock delete),
whatever the oracle parameters. -/
theorem C10_empty_input_noop (elapsed : Rat) (bf : Nat → Bool) (bs : Nat)
    (txOk : Bool) (rc : Nat) (market : String) :
    mark_funds_deleted elapsed ∅ = (0, []) ∧
    insert_new_funds bf bs elapsed [] = .ok (0, []) ∧
    update_existing_funds bf bs elapsed [] = .ok (0, []) ∧
    mark_stocks_as_deleted txOk rc market ∅ = (.int 0, []) := by
  refine ⟨?_, ?_, ?_, ?_⟩ <;>
    simp [mark_funds_deleted, insert_new_funds, update_existing_funds,
      mark_stocks_as_deleted]

/-! ## C3 — merge priority and key uniqueness -/

/-- C3 (counterexample): when the same business key `X` appears in two
domestic sources, `integrate_fund_data` keeps both records, so the
merged output does not contain at most one record per business key. -/
theorem C3_counterexample :
    (integrate_fund_data dupDomesticData).1 =
      [⟨"X", "a", "场内基金", some 10⟩, ⟨"X", "b", "开放基金", some 20⟩] ∧
    ¬ ((integrate_fund_data dupDomesticData).1.map FundRecord.code).Nodup := by
  decide

/-- C3 (amended): the merged output is every domestic record with a
non-null price, in source-priority order, followed by the accepted QDII
records; an accepted QDII record's key differs from every domestic
record's key (a domestic record is never overwritten) and the accepted
QDII keys are pairwise distinct — but duplicate keys among the domestic
sources themselves are all kept. -/
theorem C3_merge_priority (fd : List (String × List FundRecord)) :
    ∃ qdii_added : List FundRecord,
      (integrate_fund_data fd).1 = domesticSpec fd ++ qdii_added ∧
      (∀ r ∈ qdii_added, ∀ d ∈ domesticSpec fd, r.code ≠ d.code) ∧
      (qdii_added.map FundRecord.code).Nodup := by
  obtain ⟨added, heq, hfresh, hnd, _⟩ := integrate_fund_data_eq fd
  refine ⟨added, by rw [heq], ?_, hnd⟩
  intro r hr d hd hcode
  exact hfresh r hr (List.mem_toFinset.mpr (List.mem_map.mpr ⟨d, hd, hcode.symm⟩))

/-- C3 (witness): the amended statement at the spec's merge example
(domestic `X`, supplemental `X` and `Y`). -/
theorem C3_merge_priority_witness :
    ∃ qdii_added : List FundRecord,
      (integrate_fund_data mixedMergeData).1 = domesticSpec mixedMergeData ++ qdii_added ∧
      (∀ r ∈ qdii_added, ∀ d ∈ domesticSpec mixedMergeData, r.code ≠ d.code) ∧
      (qdii_added.map FundRecord.code).Nodup :=
  C3_merge_priority mixedMergeData

/-! ## C4 — null-price exclusion -/

/-- C4 (counterexample): a QDII record with a null price and a fresh
key is kept by `integrate_fund_data`, so a null-price record is not
excluded regardless of source. -/
theorem C4_counterexample :
    (integrate_fund_data nullQdiiData).1 = [⟨"Y", "y", "欧美QDII", none⟩] := by
  decide

/-- C4 (amended): every merged record carrying a domestic source type
has a non-null price (domestic null-price records are excluded); the
exclusion does not extend to the supplemental QDII sources. -/
theorem C4_domestic_null_price_excluded (fd : List (String × List FundRecord)) :
    ∀ r ∈ (integrate_fund_data fd).1, r.ftype ∈ domestic_types →
      r.price.isSome = true := by
  intro r hr hdom
  obtain ⟨added, heq, _, _, hty⟩ := integrate_fund_data_eq fd
  rw [heq] at hr
  rcases List.mem_append.mp hr with h | h
  · obtain ⟨t, _, hmem⟩ := List.mem_flatMap.mp h
    obtain ⟨x, hx, hxr⟩ := List.mem_map.mp hmem
    have hsome := List.of_mem_filter hx
    rw [← hxr]
    simpa using hsome
  · have hq := hty r h
    have hdisj : ∀ t ∈ qdii_types, t ∉ domestic_types := by decide
    exact absurd hdom (hdisj r.ftype hq)

/-- C4 (witness): a concrete merged domestic record indeed has a
non-null price. -/
theorem C4_domestic_null_price_excluded_witness :
    (⟨"X", "a", "场内基金", some 10⟩ : FundRecord).price.isSome = true :=
  C4_domestic_null_price_excluded dupDomesticData ⟨"X", "a", "场内基金", some 10⟩
    (by decide) (by decide)

/-! ## The shape of the batch aggregation and the coverage gate -/

/-- The insert worker and the update worker have the same
count/duration/error contract. -/
theorem insert_worker_eq_update_worker (txFail : Bool) (e : Rat) (b : List StockRecord) :
    insert_stock_records_batch txFail e b = update_stock_records_batch txFail e b := rfl

/-- The aggregation fold over the update workers' results, relative to
any accumulator. -/
theorem foldBatch_worker_sum (fail : Nat → Bool) (e : Rat) (l : List (Nat × List StockRecord)) :
    ∀ acc : Nat × Rat,
    (List.foldl foldBatchStep acc
        (l.map fun p => update_stock_records_batch (fail p.1) e p.2)).1
      = acc.1 + ((l.filter fun p => !(fail p.1)).map fun p => p.2.length).sum := by
  induction l with
  | nil =>
    intro acc
    simp
  | cons p rest ih =>
    intro acc
    rw [List.map_cons, List.foldl_cons]
    by_cases hf : fail p.1
    · have hw : update_stock_records_batch (fail p.1) e p.2 = (0, e, some "事务失败") := by
        simp [update_stock_records_batch, hf]
      rw [hw]
      have hstep : foldBatchStep acc (0, e, some "事务失败") = acc := rfl
      rw [hstep, ih, List.filter_cons]
      simp [hf]
    · have hw : update_stock_records_batch (fail p.1) e p.2 = (p.2.length, e, none) := by
        simp [update_stock_records_batch, hf]
      rw [hw]
      have hstep : foldBatchStep acc (p.2.length, e, none) = (acc.1 + p.2.length, acc.2 + e) := rfl
      rw [hstep, ih, List.filter_cons]
      simp [hf]
      omega

/-- The update pool's aggregate count is the sum of the sizes of the
batches whose transaction succeeded. -/
theorem foldBatchResults_update (fail : Nat → Bool) (e : Rat) (batches : List (List StockRecord)) :
    (foldBatchResults (batches.enum.map fun p =>
        update_stock_records_batch (fail p.1) e p.2)).1
      = successSizes fail batches := by
  unfold foldBatchResults successSizes
  rw [foldBatch_worker_sum]
  simp

/-- The insert pool's aggregate count, likewise. -/
theorem foldBatchResults_insert (fail : Nat → Bool) (e : Rat) (batches : List (List StockRecord)) :
    (foldBatchResults (batches.enum.map fun p =>
        insert_stock_records_batch (fail p.1) e p.2)).1
      = successSizes fail batches := by
  have h : (batches.enum.map fun p => insert_stock_records_batch (fail p.1) e p.2)
      = batches.enum.map fun p => update_stock_records_batch (fail p.1) e p.2 := by
    simp [insert_worker_eq_update_worker]
  rw [h, foldBatchResults_update]

/-- A fund type can only appear in the collection loop's success set if
its fetch produced a non-empty record list. -/
theorem collect_success_mem (fetched : String → Option (List FundRecord)) (tasks : List String) :
    ∀ (st : List (String × List FundRecord) × Finset String) (name : String),
    name ∈ (tasks.foldl (collectFundStep fetched) st).2 →
    name ∈ st.2 ∨ ∃ recs, fetched name = some recs ∧ recs ≠ [] := by
  induction tasks with
  | nil =>
    intro st name h
    exact Or.inl h
  | cons t ts ih =>
    intro st name h
    rw [List.foldl_cons] at h
    rcases ih (collectFundStep fetched st t) name h with hin | hre
    · unfold collectFundStep at hin
      cases hf : fetched t with
      | none =>
        simp only [hf] at hin
        exact Or.inl hin
      | some recs =>
        cases recs with
        | nil =>
          simp only [hf] at hin
          exact Or.inl hin
        | cons r rs =>
          simp only [hf] at hin
          rcases Finset.mem_insert.mp hin with rfl | hmem
          · exact Or.inr ⟨r :: rs, hf, by simp⟩
          · exact Or.inl hmem
    · exact Or.inr hre

/-! ## C1 — the funds coverage gate -/

/-- C1 (counterexample): the funds run result does not distinguish an
aborted run from a completed one — `sync_task_runner` returns Python
`None` on both paths; only the storage-call traces differ. -/
theorem C1_counterexample :
    funds_sync_task_runner wAbortFunds = (.ok none, []) ∧
    funds_sync_task_runner wGoodFunds =
      (.ok none, [DbCall.getExistingFundCodes, DbCall.insertFundBatch 5]) := by
  decide

/-- C1 (amended): if any one of the five configured fund types fails to
fetch or yields zero usable records, the funds sync run returns before
any database interaction — no storage call at all is issued. The run's
returned value is `None`, the same value a completed run returns, so
the aborted outcome is distinguished only by the logs, not by the run
result. -/
theorem C1_funds_abort (w : FundsWorld) (t : String) (ht : t ∈ FUND_TYPES_keys)
    (hfail : w.fetched t = none ∨ w.fetched t = some []) :
    funds_sync_task_runner w = (.ok none, []) := by
  have hc : ¬ (FUND_TYPES_keys.foldl (collectFundStep w.fetched) ([], ∅)).2
      = FUND_TYPES_keys.toFinset := by
    intro hEq
    have hmem : t ∈ (FUND_TYPES_keys.foldl (collectFundStep w.fetched) ([], ∅)).2 := by
      rw [hEq]
      exact List.mem_toFinset.mpr ht
    rcases collect_success_mem w.fetched FUND_TYPES_keys ([], ∅) t hmem with h0 | ⟨recs, hre, hne⟩
    · simp at h0
    · rcases hfail with hf | hf
      · rw [hf] at hre
        exact Option.noConfusion hre
      · rw [hf] at hre
        exact hne (Option.some.inj hre).symm
  have hnone : collect_all_fund_data w.fetched = none := by
    unfold collect_all_fund_data
    dsimp only
    rw [if_neg hc]
  unfold funds_sync_task_runner
  rw [hnone]

/-- C1 (witness): the all-fetches-fail run indeed aborts with an empty
trace. -/
theorem C1_funds_abort_witness : funds_sync_task_runner wAbortFunds = (.ok none, []) :=
  C1_funds_abort wAbortFunds "开放基金" (by decide) (Or.inl rfl)

/-! ## C5 — batch failure isolation -/

/-- C5 (counterexample): in the funds batch engine a batch whose
transaction fails is re-raised out of `insert_new_funds` — the failure
is propagated as an exception out of the engine, aborting the run. -/
theorem C5_counterexample :
    insert_new_funds (fun _ => true) 2000 0 [⟨"A", "a", "场内基金", some 1⟩]
      = .error "批量插入失败" := by
  decide

/-- C5 (amended): the stocks batch engine behaves as claimed (on a run
whose delete set is empty — the delete path has its own fault, see C6):
every update and insert batch is attempted whatever happens to its
siblings, a failed batch is dropped from the aggregate rather than
raised, and the aggregate reports exactly the successful batches'
summed record counts. The funds batch engine instead re-raises a failed
batch. -/
theorem C5_stock_batch_isolation (updFail insFail : Nat → Bool) (eU eI : Rat)
    (delOk : Bool) (rc : Nat) (market : String)
    (exist_records new_records : List StockRecord) (bs : Nat) :
    ∃ r : MarketSyncResult,
      process_market_records updFail insFail eU eI delOk rc market
          exist_records new_records ∅ bs =
        (.ok r,
         (chunks bs exist_records).map (fun b => DbCall.updateStockBatch market b.length) ++
           (chunks bs new_records).map fun b => DbCall.insertStockBatch market b.length) ∧
      r.updated = successSizes updFail (chunks bs exist_records) ∧
      r.inserted = successSizes insFail (chunks bs new_records) ∧
      r.deleted = 0 := by
  unfold process_market_records
  dsimp only
  rw [if_pos rfl]
  exact ⟨_, rfl, foldBatchResults_update updFail eU _, foldBatchResults_insert insFail eI _, rfl⟩

/-! ## C6 — market independence -/

/-- C6: at the concrete run `wBugStocks`, market `A股` reaches its
delete step (its insert call and delete statement are issued) and then
raises `TypeError`, because `mark_stocks_as_deleted` returns a bare int
that `process_market_records` unpacks as a `(count, duration)` pair;
the whole run aborts there and market `港股` — which on its own syncs
fine, second conjunct — is never reached: no `港股` call is in the
trace. -/
theorem C6_unpack_fault :
    collect_all_stock_data wBugStocks =
      (.error "TypeError: cannot unpack non-iterable int object",
       [DbCall.insertStockBatch "A股" 1, DbCall.markStocksDeleted "A股" 1]) ∧
    process_and_sync_stock_data wBugStocks "港股" =
      (.ok (), [DbCall.insertStockBatch "港股" 1]) := by
  decide

/-! ## C7 — run results and escaping exceptions -/

/-- C7 (counterexample): a funds run whose insert batches fail
propagates the exception out of `sync_task_runner` — the funds entry
point neither catches it nor returns a result object. -/
theorem C7_counterexample :
    (funds_sync_task_runner wInsFailFunds).1 = .error "批量插入失败" := by
  decide

/-- C7 (amended): the stocks entry point is total whenever processor
construction succeeds: it returns a dict with a success flag — the
processed/skipped counts on success, the caught exception's text on
failure. The funds entry point does not share this property: it returns
`None` and lets storage exceptions escape (counterexample). -/
theorem C7_stock_runner_total (w : StockWorld) (h : w.factoryOk = true) :
    ∃ r : StockRunResult,
      (stock_sync_task_runner w).1 = .ok r ∧
      ((∃ counts, r = ⟨true, some counts, none⟩) ∨ (∃ e, r = ⟨false, none, some e⟩)) := by
  unfold stock_sync_task_runner
  dsimp only
  rw [h]
  cases hb : (collect_all_stock_data w).1 with
  | ok v =>
    refine ⟨⟨true, some v, none⟩, ?_, Or.inl ⟨v, rfl⟩⟩
    simp [hb]
  | error e =>
    refine ⟨⟨false, none, some e⟩, ?_, Or.inr ⟨e, rfl⟩⟩
    simp [hb]

/-- C7 (witness): the runner applied to the concrete `wBugStocks` run
returns a result dict (here a `success=False` one, since that run's
market loop raises). -/
theorem C7_stock_runner_total_witness :
    ∃ r : StockRunResult,
      (stock_sync_task_runner wBugStocks).1 = .ok r ∧
      ((∃ counts, r = ⟨true, some counts, none⟩) ∨ (∃ e, r = ⟨false, none, some e⟩)) :=
  C7_stock_runner_total wBugStocks rfl

end FreedomSync
